import Mathlib

/-!
Shallow embedding of the aggregate-command request codec
(`AggregationRequest::parseFromBSON` and
`AggregationRequest::serializeToCommandObj`) together with the data model
from `aggregation_request.h`.  Raw command documents are modelled as
order-preserving association lists of dynamically typed values.
-/

/-- A dynamically typed value of a raw command document.  Numbers are
collapsed into one integer constructor; the code under study only ever
distinguishes array, object, boolean and string from the rest. -/
inductive BSONValue : Type where
  | null : BSONValue
  | bool : Bool → BSONValue
  | int : Int → BSONValue
  | str : String → BSONValue
  | doc : List (String × BSONValue) → BSONValue
  | array : List BSONValue → BSONValue

/-- A raw structured document: an ordered list of named fields. -/
abbrev BSONObj := List (String × BSONValue)

/-- First field of the document with the given name, as `cmdObj[name]` in
the source (missing field is `none`, standing for an eoo element). -/
def getField : BSONObj → String → Option BSONValue
  | [], _ => none
  | (n, v) :: rest, key => if n = key then some v else getField rest key

def BSONValue.isDoc : BSONValue → Bool
  | .doc _ => true
  | _ => false

def BSONValue.isArray : BSONValue → Bool
  | .array _ => true
  | _ => false

/-- `typeName` from the source, restricted to the modelled value kinds
(numbers are reported as "long"). -/
def typeName : BSONValue → String
  | .null => "null"
  | .bool _ => "bool"
  | .int _ => "long"
  | .str _ => "string"
  | .doc _ => "object"
  | .array _ => "array"

/-- The source checks `fieldName[0] == '$'`; an empty field name never
matches. -/
def startsWithDollarSign (s : String) : Bool :=
  match s.data with
  | [] => false
  | c :: _ => c = Char.ofNat 36

/-- Error codes that the codec can produce. -/
inductive ErrorCodes : Type where
  | TypeMismatch : ErrorCodes
  | FailedToParse : ErrorCodes
  | IllegalOperation : ErrorCodes
  | BadValue : ErrorCodes
deriving DecidableEq, Repr

/-- A non-OK `Status`: an error code plus a human-readable message. -/
structure Err : Type where
  code : ErrorCodes
  msg : String
deriving DecidableEq, Repr

/-- Modelled from the spec: the target-collection identifier
(`NamespaceString`, absent from src/), split into a database part and a
collection part; `coll` is the collection-name portion. -/
structure NamespaceString : Type where
  db : String
  coll : String
deriving DecidableEq, Repr

namespace ExplainOptions

/-- Modelled from the spec: the explain-verbosity enumeration owned by an
external collaborator (`ExplainOptions::Verbosity`, absent from src/),
with levels query-planner, execution-stats and all-plans. -/
inductive Verbosity : Type where
  | kQueryPlanner : Verbosity
  | kExecStats : Verbosity
  | kExecAllPlans : Verbosity
deriving DecidableEq, Repr

end ExplainOptions

/-- The validated request entity of `aggregation_request.h`. -/
structure AggregationRequest : Type where
  nss : NamespaceString
  pipeline : List BSONObj
  batchSize : Int
  collation : BSONObj
  hint : BSONObj
  explainMode : Option ExplainOptions.Verbosity
  allowDiskUse : Bool
  fromRouter : Bool
  bypassDocumentValidation : Bool

/-- The two-argument constructor: namespace plus pipeline, every other
field at its default (`batchSize` at `kDefaultBatchSize`). -/
def AggregationRequest.make (nss : NamespaceString) (pipeline : List BSONObj) :
    AggregationRequest :=
  { nss := nss
    pipeline := pipeline
    batchSize := 101
    collation := []
    hint := []
    explainMode := none
    allowDiskUse := false
    fromRouter := false
    bypassDocumentValidation := false }

def AggregationRequest.getBatchSize (r : AggregationRequest) : Int := r.batchSize

def AggregationRequest.getPipeline (r : AggregationRequest) : List BSONObj := r.pipeline

def AggregationRequest.getCollation (r : AggregationRequest) : BSONObj := r.collation

def AggregationRequest.getHint (r : AggregationRequest) : BSONObj := r.hint

def AggregationRequest.getExplain (r : AggregationRequest) :
    Option ExplainOptions.Verbosity := r.explainMode

def AggregationRequest.shouldAllowDiskUse (r : AggregationRequest) : Bool := r.allowDiskUse

def AggregationRequest.isFromRouter (r : AggregationRequest) : Bool := r.fromRouter

def AggregationRequest.shouldBypassDocumentValidation (r : AggregationRequest) : Bool :=
  r.bypassDocumentValidation

/- Setters.  `setBatchSize` in the source asserts `0 ≤ batchSize`; its only
caller inside the codec passes a value the cursor-options parser has
already checked to be non-negative (`parseCommandCursorOptions_nonneg`
below). -/

def setBatchSize (r : AggregationRequest) (b : Int) : AggregationRequest :=
  { r with batchSize := b }

def setCollation (r : AggregationRequest) (c : BSONObj) : AggregationRequest :=
  { r with collation := c }

def setHint (r : AggregationRequest) (h : BSONObj) : AggregationRequest :=
  { r with hint := h }

def setExplain (r : AggregationRequest) (v : Option ExplainOptions.Verbosity) :
    AggregationRequest :=
  { r with explainMode := v }

def setAllowDiskUse (r : AggregationRequest) (b : Bool) : AggregationRequest :=
  { r with allowDiskUse := b }

def setFromRouter (r : AggregationRequest) (b : Bool) : AggregationRequest :=
  { r with fromRouter := b }

def setBypassDocumentValidation (r : AggregationRequest) (b : Bool) : AggregationRequest :=
  { r with bypassDocumentValidation := b }

/- Field-name constants from the source. -/

def kCommandName : String := "aggregate"
def kCursorName : String := "cursor"
def kBatchSizeName : String := "batchSize"
def kFromRouterName : String := "fromRouter"
def kPipelineName : String := "pipeline"
def kCollationName : String := "collation"
def kExplainName : String := "explain"
def kAllowDiskUseName : String := "allowDiskUse"
def kHintName : String := "hint"

def kDefaultBatchSize : Int := 101

/-- Modelled from the spec: the max-time-limit field-name constant owned by
an external collaborator (`QueryRequest::cmdOptionMaxTimeMS`, absent from
src/). -/
def cmdOptionMaxTimeMS : String := "maxTimeMS"

/-- Modelled from the spec: the write-concern field-name constant owned by
an external collaborator (`WriteConcernOptions::kWriteConcernField`,
absent from src/). -/
def kWriteConcernField : String := "writeConcern"

/-- Modelled from the spec: the read-concern field-name constant owned by
an external collaborator (`ReadConcernArgs::kReadConcernFieldName`,
absent from src/). -/
def kReadConcernFieldName : String := "readConcern"

/-- Modelled from the spec: the bypass-document-validation field-name
constant owned by an external collaborator
(`bypassDocumentValidationCommandOption()`, absent from src/). -/
def bypassDocumentValidationCommandOption : String := "bypassDocumentValidation"

/-- Modelled from the spec: the loose truthiness coercion of a dynamically
typed value (`BSONElement::trueValue`, absent from src/): booleans are
themselves, numbers are true exactly when nonzero, null is false, and any
other value is true. -/
def trueValue : BSONValue → Bool
  | .bool b => b
  | .int n => n ≠ 0
  | .null => false
  | _ => true

/-- Modelled from the spec: the external cursor-options parser
(`CursorRequest::parseCommandCursorOptions`, absent from src/).  It
receives the whole command object and a default batch size; a missing
cursor field yields the default, the cursor field must otherwise be an
object whose only recognized member is a non-negative numeric `batchSize`
overriding the default. -/
def parseCommandCursorOptions (cmdObj : BSONObj) (defaultBatchSize : Int) :
    Except Err Int :=
  match getField cmdObj kCursorName with
  | none => .ok defaultBatchSize
  | some (.doc cursorFields) =>
    match getField cursorFields kBatchSizeName with
    | none =>
      if cursorFields.isEmpty then .ok defaultBatchSize
      else .error ⟨.FailedToParse, "cursor object cannot contain fields other than batchSize"⟩
    | some (.int n) =>
      if cursorFields.length = 1 then
        if 0 ≤ n then .ok n
        else .error ⟨.BadValue, "batchSize must not be negative"⟩
      else .error ⟨.FailedToParse, "cursor object cannot contain fields other than batchSize"⟩
    | some _ => .error ⟨.TypeMismatch, "batchSize must be a number"⟩
  | some _ => .error ⟨.FailedToParse, "cursor field must be missing or an object"⟩

/-- The option names parsed by external collaborators, ignored by the
field scan. -/
def optionsParsedElseWhere : List String :=
  [cmdOptionMaxTimeMS, kWriteConcernField, kPipelineName, kCommandName,
    kReadConcernFieldName]

/-- True when the raw document holds a `pipeline` field whose value is an
array (the negation of `pipelineElem.eoo() || pipelineElem.type() != Array`). -/
def pipelineElemIsArray (cmdObj : BSONObj) : Bool :=
  match getField cmdObj kPipelineName with
  | some (.array _) => true
  | _ => false

/-- Checks every element of the raw pipeline array is an object, collecting
the element objects in order. -/
def checkPipelineElems : List BSONValue → Except Err (List BSONObj)
  | [] => .ok []
  | e :: rest =>
    match e with
    | .doc d =>
      match checkPipelineElems rest with
      | .ok ps => .ok (d :: ps)
      | .error err => .error err
    | _ => .error ⟨.TypeMismatch, "Each element of the \x27pipeline\x27 array must be an object"⟩

/-- Step 1 of decode: mandatory pipeline extraction. -/
def extractPipeline (cmdObj : BSONObj) : Except Err (List BSONObj) :=
  match getField cmdObj kPipelineName with
  | some (.array elems) => checkPipelineElems elems
  | _ => .error ⟨.TypeMismatch, "\x27pipeline\x27 option must be specified as an array"⟩

/-- The mutable state of the field scan: the request under construction
plus the `hasCursorElem` and `hasExplainElem` flags. -/
structure ScanState : Type where
  req : AggregationRequest
  hasCursorElem : Bool
  hasExplainElem : Bool

/-- One iteration of the field-by-field scan of `parseFromBSON`,
classifying a single raw field by name. -/
def stepField (readOnly : Bool) (cmdObj : BSONObj) (st : ScanState)
    (field : String × BSONValue) : Except Err ScanState :=
  if startsWithDollarSign field.1 then .ok st
  else if optionsParsedElseWhere.contains field.1 then .ok st
  else if field.1 = kCursorName then
    match parseCommandCursorOptions cmdObj kDefaultBatchSize with
    | .error e => .error e
    | .ok batchSize =>
      .ok { st with hasCursorElem := true, req := setBatchSize st.req batchSize }
  else if field.1 = kCollationName then
    match field.2 with
    | .doc d => .ok { st with req := setCollation st.req d }
    | v => .error ⟨.TypeMismatch, kCollationName ++ " must be an object, not a " ++ typeName v⟩
  else if field.1 = kHintName then
    match field.2 with
    | .doc d => .ok { st with req := setHint st.req d }
    | .str s => .ok { st with req := setHint st.req [("$hint", BSONValue.str s)] }
    | _ =>
      .error ⟨.FailedToParse,
        kHintName ++ " must be specified as a string representing an index name, or an object representing an index\x27s key pattern"⟩
  else if field.1 = kExplainName then
    match field.2 with
    | .bool b =>
      if b then
        .ok { st with hasExplainElem := true,
                      req := setExplain st.req (some ExplainOptions.Verbosity.kQueryPlanner) }
      else .ok { st with hasExplainElem := true }
    | v => .error ⟨.TypeMismatch, kExplainName ++ " must be a boolean, not a " ++ typeName v⟩
  else if field.1 = kFromRouterName then
    match field.2 with
    | .bool b => .ok { st with req := setFromRouter st.req b }
    | v => .error ⟨.TypeMismatch, kFromRouterName ++ " must be a boolean, not a " ++ typeName v⟩
  else if field.1 = kAllowDiskUseName then
    if readOnly then
      .error ⟨.IllegalOperation,
        "The \x27" ++ kAllowDiskUseName ++ "\x27 option is not permitted in read-only mode."⟩
    else
      match field.2 with
      | .bool b => .ok { st with req := setAllowDiskUse st.req b }
      | v => .error ⟨.TypeMismatch, kAllowDiskUseName ++ " must be a boolean, not a " ++ typeName v⟩
  else if field.1 = bypassDocumentValidationCommandOption then
    .ok { st with req := setBypassDocumentValidation st.req (trueValue field.2) }
  else .error ⟨.FailedToParse, "unrecognized field \x27" ++ field.1 ++ "\x27"⟩

/-- Step 2 of decode: the field-by-field scan, in original field order,
stopping at the first error. -/
def scanFields (readOnly : Bool) (cmdObj : BSONObj) :
    List (String × BSONValue) → ScanState → Except Err ScanState
  | [], st => .ok st
  | f :: rest, st =>
    match stepField readOnly cmdObj st f with
    | .error e => .error e
    | .ok st2 => scanFields readOnly cmdObj rest st2

/-- First post-scan cross-field check: an explicit verbosity parameter
collides with an `explain` field; otherwise the parameter is stored. -/
def applyVerbosityParam (explainVerbosity : Option ExplainOptions.Verbosity)
    (st : ScanState) : Except Err ScanState :=
  match explainVerbosity with
  | some _ =>
    if st.hasExplainElem then
      .error ⟨.FailedToParse,
        "The \x27" ++ kExplainName ++ "\x27 option is illegal when a explain verbosity is also provided"⟩
    else .ok { st with req := setExplain st.req explainVerbosity }
  | none => .ok st

/-- Remaining post-scan cross-field checks, in source order: cursor
required except for explain, then the read-concern and write-concern
exclusions. -/
def finalChecks (cmdObj : BSONObj) (st2 : ScanState) : Except Err AggregationRequest :=
  if !st2.hasCursorElem && !st2.req.explainMode.isSome then
    .error ⟨.FailedToParse,
      "The \x27" ++ kCursorName ++ "\x27 option is required, except for aggregation explain"⟩
  else if st2.req.explainMode.isSome && (getField cmdObj kReadConcernFieldName).isSome then
    .error ⟨.FailedToParse,
      "Aggregation explain does not support the \x27" ++ kReadConcernFieldName ++ "\x27 option"⟩
  else if st2.req.explainMode.isSome && (getField cmdObj kWriteConcernField).isSome then
    .error ⟨.FailedToParse,
      "Aggregation explain does not support the\x27" ++ kWriteConcernField ++ "\x27 option"⟩
  else .ok st2.req

/-- Step 3 of decode: the post-scan cross-field checks, in source order. -/
def crossFieldChecks (cmdObj : BSONObj)
    (explainVerbosity : Option ExplainOptions.Verbosity) (st : ScanState) :
    Except Err AggregationRequest :=
  match applyVerbosityParam explainVerbosity st with
  | .error e => .error e
  | .ok st2 => finalChecks cmdObj st2

/-- `AggregationRequest::parseFromBSON`.  The read-only flag of the storage
layer (a global in the source) is passed as the first argument. -/
def parseFromBSON (readOnly : Bool) (nss : NamespaceString) (cmdObj : BSONObj)
    (explainVerbosity : Option ExplainOptions.Verbosity) :
    Except Err AggregationRequest :=
  match extractPipeline cmdObj with
  | .error e => .error e
  | .ok pipeline =>
    match scanFields readOnly cmdObj cmdObj
        ⟨AggregationRequest.make nss pipeline, false, false⟩ with
    | .error e => .error e
    | .ok st => crossFieldChecks cmdObj explainVerbosity st

/-- `AggregationRequest::serializeToCommandObj`: a field with a missing
value in the source `Document` initializer is absent from the result. -/
def serializeToCommandObj (r : AggregationRequest) : BSONObj :=
  [(kCommandName, BSONValue.str r.nss.coll),
   (kPipelineName, BSONValue.array (r.pipeline.map BSONValue.doc))]
  ++ (if r.allowDiskUse then [(kAllowDiskUseName, BSONValue.bool true)] else [])
  ++ (if r.fromRouter then [(kFromRouterName, BSONValue.bool true)] else [])
  ++ (if r.bypassDocumentValidation then
        [(bypassDocumentValidationCommandOption, BSONValue.bool true)] else [])
  ++ (if r.collation.isEmpty then [] else [(kCollationName, BSONValue.doc r.collation)])
  ++ (if r.explainMode.isSome then []
      else [(kCursorName, BSONValue.doc [(kBatchSizeName, BSONValue.int r.batchSize)])])
  ++ (if r.hint.isEmpty then [] else [(kHintName, BSONValue.doc r.hint)])

/- Projections of a decode result, used to state concrete facts about
successful decodes without an equality test on whole requests. -/

def decodedExplainIsSome : Except Err AggregationRequest → Bool
  | .ok r => r.explainMode.isSome
  | .error _ => false

def decodedBatchSize : Except Err AggregationRequest → Option Int
  | .ok r => some r.batchSize
  | .error _ => none

def decodedHint : Except Err AggregationRequest → Option BSONObj
  | .ok r => some r.hint
  | .error _ => none

def decodedAllowDiskUse : Except Err AggregationRequest → Option Bool
  | .ok r => some r.allowDiskUse
  | .error _ => none

/-- Re-encodes a successfully decoded request (used to state round-trip
facts); an error decodes to the empty document. -/
def reserializeOk : Except Err AggregationRequest → BSONObj
  | .ok r => serializeToCommandObj r
  | .error _ => []

/-- Whether `pat` occurs as a contiguous run inside the character list. -/
def charListHasSub (pat : List Char) : List Char → Bool
  | [] => pat.isEmpty
  | c :: cs => pat.isPrefixOf (c :: cs) || charListHasSub pat cs

/-- Whether the string `pat` occurs as a substring of `s`. -/
def strHasSub (pat s : String) : Bool :=
  charListHasSub pat.data s.data

/- Helper lemmas about the scan. -/

theorem parseCommandCursorOptions_nonneg {cmdObj : BSONObj} {d n : Int}
    (hd : 0 ≤ d) (h : parseCommandCursorOptions cmdObj d = .ok n) : 0 ≤ n := by
  unfold parseCommandCursorOptions at h
  repeat' split at h
  all_goals try exact Except.noConfusion h
  all_goals injection h with h
  all_goals subst h
  all_goals assumption

theorem stepField_ok_nss_pipeline {ro : Bool} {cmdObj : BSONObj} {st st' : ScanState}
    {f : String × BSONValue} (h : stepField ro cmdObj st f = .ok st') :
    st'.req.nss = st.req.nss ∧ st'.req.pipeline = st.req.pipeline := by
  unfold stepField at h
  repeat' split at h
  all_goals try exact Except.noConfusion h
  all_goals injection h with h
  all_goals subst h
  all_goals exact ⟨rfl, rfl⟩

theorem stepField_ok_batchSize_nonneg {ro : Bool} {cmdObj : BSONObj} {st st' : ScanState}
    {f : String × BSONValue} (h : stepField ro cmdObj st f = .ok st')
    (hb : 0 ≤ st.req.batchSize) : 0 ≤ st'.req.batchSize := by
  unfold stepField at h
  repeat' split at h
  all_goals try exact Except.noConfusion h
  all_goals injection h with h
  all_goals subst h
  all_goals first
    | assumption
    | exact @parseCommandCursorOptions_nonneg cmdObj kDefaultBatchSize _
        (by norm_num [kDefaultBatchSize]) (by assumption)

theorem stepField_ok_hasCursorElem {ro : Bool} {cmdObj : BSONObj} {st st' : ScanState}
    {f : String × BSONValue} (hne : f.1 ≠ kCursorName)
    (h : stepField ro cmdObj st f = .ok st') : st'.hasCursorElem = st.hasCursorElem := by
  unfold stepField at h
  repeat' split at h
  all_goals try exact Except.noConfusion h
  all_goals injection h with h
  all_goals subst h
  all_goals rfl

theorem stepField_ok_explain_unchanged {ro : Bool} {cmdObj : BSONObj} {st st' : ScanState}
    {f : String × BSONValue} (hne : f.1 ≠ kExplainName)
    (h : stepField ro cmdObj st f = .ok st') :
    st'.hasExplainElem = st.hasExplainElem ∧ st'.req.explainMode = st.req.explainMode := by
  unfold stepField at h
  repeat' split at h
  all_goals try exact Except.noConfusion h
  all_goals injection h with h
  all_goals subst h
  all_goals exact ⟨rfl, rfl⟩

theorem stepField_ok_hasExplainElem_mono {ro : Bool} {cmdObj : BSONObj} {st st' : ScanState}
    {f : String × BSONValue} (h : stepField ro cmdObj st f = .ok st')
    (he : st.hasExplainElem = true) : st'.hasExplainElem = true := by
  unfold stepField at h
  repeat' split at h
  all_goals try exact Except.noConfusion h
  all_goals injection h with h
  all_goals subst h
  all_goals first | rfl | assumption

theorem stepField_explainName_hasExplainElem {ro : Bool} {cmdObj : BSONObj}
    {st st' : ScanState} {v : BSONValue}
    (h : stepField ro cmdObj st (kExplainName, v) = .ok st') :
    st'.hasExplainElem = true := by
  cases v
  all_goals try exact Except.noConfusion h
  next b =>
    cases b
    all_goals injection h with h
    all_goals subst h
    all_goals rfl

theorem scanFields_ok_nss_pipeline {ro : Bool} {cmdObj : BSONObj} :
    ∀ (fields : List (String × BSONValue)) {st st' : ScanState},
      scanFields ro cmdObj fields st = .ok st' →
      st'.req.nss = st.req.nss ∧ st'.req.pipeline = st.req.pipeline
  | [], st, st', h => by
    injection h with h
    subst h
    exact ⟨rfl, rfl⟩
  | f :: rest, st, st', h => by
    unfold scanFields at h
    split at h
    · exact Except.noConfusion h
    · next st2 hstep =>
      obtain ⟨h1, h2⟩ := scanFields_ok_nss_pipeline rest h
      obtain ⟨h3, h4⟩ := stepField_ok_nss_pipeline hstep
      exact ⟨h1.trans h3, h2.trans h4⟩

theorem scanFields_ok_batchSize_nonneg {ro : Bool} {cmdObj : BSONObj} :
    ∀ (fields : List (String × BSONValue)) {st st' : ScanState},
      scanFields ro cmdObj fields st = .ok st' → 0 ≤ st.req.batchSize →
      0 ≤ st'.req.batchSize
  | [], st, st', h, hb => by
    injection h with h
    subst h
    exact hb
  | f :: rest, st, st', h, hb => by
    unfold scanFields at h
    split at h
    · exact Except.noConfusion h
    · next st2 hstep =>
      exact scanFields_ok_batchSize_nonneg rest h (stepField_ok_batchSize_nonneg hstep hb)

theorem scanFields_ok_hasCursorElem {ro : Bool} {cmdObj : BSONObj} :
    ∀ (fields : List (String × BSONValue)) {st st' : ScanState},
      scanFields ro cmdObj fields st = .ok st' →
      (∀ f ∈ fields, f.1 ≠ kCursorName) →
      st'.hasCursorElem = st.hasCursorElem
  | [], st, st', h, _ => by
    injection h with h
    subst h
    rfl
  | f :: rest, st, st', h, hnc => by
    unfold scanFields at h
    split at h
    · exact Except.noConfusion h
    · next st2 hstep =>
      have h1 := scanFields_ok_hasCursorElem rest h (fun g hg => hnc g (List.mem_cons_of_mem f hg))
      have h2 := stepField_ok_hasCursorElem (hnc f (List.mem_cons_self f rest)) hstep
      exact h1.trans h2

theorem scanFields_ok_explain_unchanged {ro : Bool} {cmdObj : BSONObj} :
    ∀ (fields : List (String × BSONValue)) {st st' : ScanState},
      scanFields ro cmdObj fields st = .ok st' →
      (∀ f ∈ fields, f.1 ≠ kExplainName) →
      st'.hasExplainElem = st.hasExplainElem ∧ st'.req.explainMode = st.req.explainMode
  | [], st, st', h, _ => by
    injection h with h
    subst h
    exact ⟨rfl, rfl⟩
  | f :: rest, st, st', h, hne => by
    unfold scanFields at h
    split at h
    · exact Except.noConfusion h
    · next st2 hstep =>
      obtain ⟨h1, h2⟩ :=
        scanFields_ok_explain_unchanged rest h (fun g hg => hne g (List.mem_cons_of_mem f hg))
      obtain ⟨h3, h4⟩ := stepField_ok_explain_unchanged (hne f (List.mem_cons_self f rest)) hstep
      exact ⟨h1.trans h3, h2.trans h4⟩

theorem scanFields_ok_hasExplainElem_mono {ro : Bool} {cmdObj : BSONObj} :
    ∀ (fields : List (String × BSONValue)) {st st' : ScanState},
      scanFields ro cmdObj fields st = .ok st' → st.hasExplainElem = true →
      st'.hasExplainElem = true
  | [], st, st', h, he => by
    injection h with h
    subst h
    exact he
  | f :: rest, st, st', h, he => by
    unfold scanFields at h
    split at h
    · exact Except.noConfusion h
    · next st2 hstep =>
      exact scanFields_ok_hasExplainElem_mono rest h (stepField_ok_hasExplainElem_mono hstep he)

theorem scanFields_ok_hasExplainElem_of_mem {ro : Bool} {cmdObj : BSONObj} :
    ∀ (fields : List (String × BSONValue)) {st st' : ScanState},
      scanFields ro cmdObj fields st = .ok st' →
      (∃ f ∈ fields, f.1 = kExplainName) →
      st'.hasExplainElem = true
  | [], _, _, _, hmem => absurd hmem (by simp)
  | f :: rest, st, st', h, hmem => by
    unfold scanFields at h
    split at h
    · exact Except.noConfusion h
    · next st2 hstep =>
      obtain ⟨g, hg, hgname⟩ := hmem
      rcases List.mem_cons.mp hg with hgf | hgrest
      · subst hgf
        obtain ⟨n, v⟩ := g
        subst hgname
        exact scanFields_ok_hasExplainElem_mono rest h
          (stepField_explainName_hasExplainElem hstep)
      · exact scanFields_ok_hasExplainElem_of_mem rest h ⟨g, hgrest, hgname⟩

theorem getField_eq_none_forall {l : BSONObj} {key : String}
    (h : getField l key = none) : ∀ f ∈ l, f.1 ≠ key := by
  intro f hf
  induction l with
  | nil => cases hf
  | cons g rest ih =>
    obtain ⟨n, v⟩ := g
    unfold getField at h
    split at h
    · exact Option.noConfusion h
    · rcases List.mem_cons.mp hf with hfg | hfr
      · subst hfg
        next hne => exact hne
      · exact ih h hfr

theorem getField_eq_some_mem {l : BSONObj} {key : String} {v : BSONValue}
    (h : getField l key = some v) : (key, v) ∈ l := by
  induction l with
  | nil => exact Option.noConfusion h
  | cons g rest ih =>
    obtain ⟨n, w⟩ := g
    unfold getField at h
    split at h
    · next heq =>
      injection h with h
      subst h
      subst heq
      exact List.mem_cons_self _ _
    · exact List.mem_cons_of_mem _ (ih h)

theorem applyVerbosityParam_ok_shape {ev : Option ExplainOptions.Verbosity}
    {st st2 : ScanState} (h : applyVerbosityParam ev st = .ok st2) :
    (ev = none ∧ st2 = st) ∨
      (∃ v, ev = some v ∧ st.hasExplainElem = false ∧
        st2 = { st with req := setExplain st.req (some v) }) := by
  unfold applyVerbosityParam at h
  repeat' split at h
  all_goals try exact Except.noConfusion h
  all_goals injection h with h
  all_goals subst h
  · rename_i v hne
    exact Or.inr ⟨v, rfl, by simpa using hne, rfl⟩
  · exact Or.inl ⟨rfl, rfl⟩

theorem finalChecks_ok_req {cmdObj : BSONObj} {st2 : ScanState} {r : AggregationRequest}
    (h : finalChecks cmdObj st2 = .ok r) : r = st2.req := by
  unfold finalChecks at h
  repeat' split at h
  all_goals try exact Except.noConfusion h
  injection h with h
  exact h.symm

theorem finalChecks_ok_cursor_or_explain {cmdObj : BSONObj} {st2 : ScanState}
    {r : AggregationRequest} (h : finalChecks cmdObj st2 = .ok r) :
    st2.hasCursorElem = true ∨ st2.req.explainMode.isSome = true := by
  unfold finalChecks at h
  repeat' split at h
  all_goals try exact Except.noConfusion h
  next hcond _ _ =>
    rw [Bool.not_eq_true, Bool.and_eq_false_iff] at hcond
    rcases hcond with hcond | hcond
    · exact Or.inl (by simpa using hcond)
    · exact Or.inr (by simpa using hcond)

theorem crossFieldChecks_ok_shape {cmdObj : BSONObj}
    {ev : Option ExplainOptions.Verbosity} {st : ScanState} {r : AggregationRequest}
    (h : crossFieldChecks cmdObj ev st = .ok r) :
    (ev = none ∧ r = st.req) ∨
      (∃ v, ev = some v ∧ st.hasExplainElem = false ∧ r = setExplain st.req (some v)) := by
  unfold crossFieldChecks at h
  split at h
  · exact Except.noConfusion h
  · next st2 hav =>
    have hr := finalChecks_ok_req h
    rcases applyVerbosityParam_ok_shape hav with ⟨hev, hst⟩ | ⟨v, hev, hhe, hst⟩
    · exact Or.inl ⟨hev, by rw [hr, hst]⟩
    · exact Or.inr ⟨v, hev, hhe, by rw [hr, hst]⟩

theorem crossFieldChecks_ok_cursor_or_explain {cmdObj : BSONObj}
    {ev : Option ExplainOptions.Verbosity} {st : ScanState} {r : AggregationRequest}
    (h : crossFieldChecks cmdObj ev st = .ok r) :
    st.hasCursorElem = true ∨ r.explainMode.isSome = true := by
  unfold crossFieldChecks at h
  split at h
  · exact Except.noConfusion h
  · next st2 hav =>
    have hr := finalChecks_ok_req h
    have hco := finalChecks_ok_cursor_or_explain h
    rcases applyVerbosityParam_ok_shape hav with ⟨hev, hst⟩ | ⟨v, hev, hhe, hst⟩
    all_goals subst hst
    all_goals rcases hco with hc | he
    · exact Or.inl hc
    · exact Or.inr (hr ▸ he)
    · exact Or.inl hc
    · exact Or.inr (hr ▸ he)

theorem checkPipelineElems_error_of_not_all_doc :
    ∀ {elems : List BSONValue}, elems.all BSONValue.isDoc = false →
      checkPipelineElems elems =
        .error ⟨.TypeMismatch, "Each element of the \x27pipeline\x27 array must be an object"⟩
  | [], h => by simp at h
  | e :: rest, h => by
    unfold checkPipelineElems
    cases e
    case doc d =>
      have hr : rest.all BSONValue.isDoc = false := by
        simpa [BSONValue.isDoc] using h
      rw [checkPipelineElems_error_of_not_all_doc hr]
    all_goals rfl

theorem checkPipelineElems_ok_map :
    ∀ {elems : List BSONValue} {ps : List BSONObj}, checkPipelineElems elems = .ok ps →
      elems = ps.map BSONValue.doc
  | [], ps, h => by
    injection h with h
    subst h
    rfl
  | e :: rest, ps, h => by
    unfold checkPipelineElems at h
    cases e
    all_goals try exact Except.noConfusion h
    case doc d =>
      cases hck : checkPipelineElems rest with
      | error err =>
        rw [hck] at h
        exact Except.noConfusion h
      | ok ps2 =>
        rw [hck] at h
        injection h with h
        subst h
        simp [checkPipelineElems_ok_map hck]

theorem checkPipelineElems_isOk_of_all_doc :
    ∀ {elems : List BSONValue}, elems.all BSONValue.isDoc = true →
      (checkPipelineElems elems).isOk = true
  | [], _ => rfl
  | e :: rest, h => by
    rw [List.all_cons, Bool.and_eq_true] at h
    obtain ⟨he, hr⟩ := h
    unfold checkPipelineElems
    cases e
    case doc d =>
      have ih := checkPipelineElems_isOk_of_all_doc hr
      cases hck : checkPipelineElems rest with
      | error err =>
        rw [hck] at ih
        exact Bool.noConfusion ih
      | ok ps2 => rfl
    all_goals exact absurd he (by simp [BSONValue.isDoc])

theorem extractPipeline_error_of_not_array {cmdObj : BSONObj}
    (h : pipelineElemIsArray cmdObj = false) :
    extractPipeline cmdObj =
      .error ⟨.TypeMismatch, "\x27pipeline\x27 option must be specified as an array"⟩ := by
  unfold pipelineElemIsArray at h
  unfold extractPipeline
  split
  · next heq =>
    rw [heq] at h
    exact absurd h (by simp)
  · rfl

theorem parseFromBSON_ok_pipeline {ro : Bool} {nss : NamespaceString} {cmdObj : BSONObj}
    {ev : Option ExplainOptions.Verbosity} {ps : List BSONObj} {r : AggregationRequest}
    (hex : extractPipeline cmdObj = .ok ps)
    (h : parseFromBSON ro nss cmdObj ev = .ok r) : r.pipeline = ps := by
  unfold parseFromBSON at h
  split at h
  · exact Except.noConfusion h
  · next ps2 hex2 =>
    have hps : ps2 = ps := by
      have := hex2.symm.trans hex
      injection this
    subst hps
    split at h
    · exact Except.noConfusion h
    · next st hscan =>
      have hpres := (scanFields_ok_nss_pipeline _ hscan).2
      rcases crossFieldChecks_ok_shape h with ⟨_, hr⟩ | ⟨v, _, _, hr⟩
      · rw [hr]
        exact hpres
      · rw [hr]
        exact hpres

theorem parseFromBSON_ok_batchSize_nonneg {ro : Bool} {nss : NamespaceString}
    {cmdObj : BSONObj} {ev : Option ExplainOptions.Verbosity} {r : AggregationRequest}
    (h : parseFromBSON ro nss cmdObj ev = .ok r) : 0 ≤ r.batchSize := by
  unfold parseFromBSON at h
  split at h
  · exact Except.noConfusion h
  · next ps hex =>
    split at h
    · exact Except.noConfusion h
    · next st hscan =>
      have hnn := scanFields_ok_batchSize_nonneg _ hscan (by norm_num [AggregationRequest.make])
      rcases crossFieldChecks_ok_shape h with ⟨_, hr⟩ | ⟨v, _, _, hr⟩
      · rw [hr]
        exact hnn
      · rw [hr]
        exact hnn

/-- Claim C1: for every raw command document, decode fails with
`TypeMismatch` and the message that the pipeline option must be specified
as an array when the field named "pipeline" is missing or not an array; if
it is an array, decode fails with `TypeMismatch` and the message that each
element of the pipeline array must be an object whenever any element is not
an object, regardless of position; otherwise the element check succeeds,
the elements are copied in original order into the pipeline of the seeded
request, the batch size of the seeded request is the default 101, and the
pipeline of any successfully decoded request equals those elements. -/
theorem parseFromBSON_pipeline_spec (readOnly : Bool) (nss : NamespaceString)
    (cmdObj : BSONObj) (ev : Option ExplainOptions.Verbosity) :
    (pipelineElemIsArray cmdObj = false →
      parseFromBSON readOnly nss cmdObj ev =
        .error ⟨.TypeMismatch, "\x27pipeline\x27 option must be specified as an array"⟩)
    ∧ (∀ elems, getField cmdObj kPipelineName = some (BSONValue.array elems) →
        elems.all BSONValue.isDoc = false →
        parseFromBSON readOnly nss cmdObj ev =
          .error ⟨.TypeMismatch, "Each element of the \x27pipeline\x27 array must be an object"⟩)
    ∧ (∀ elems, getField cmdObj kPipelineName = some (BSONValue.array elems) →
        elems.all BSONValue.isDoc = true → (checkPipelineElems elems).isOk = true)
    ∧ (∀ elems ps, getField cmdObj kPipelineName = some (BSONValue.array elems) →
        checkPipelineElems elems = .ok ps →
        elems = ps.map BSONValue.doc ∧
        (AggregationRequest.make nss ps).pipeline = ps ∧
        (AggregationRequest.make nss ps).batchSize = kDefaultBatchSize ∧
        (∀ r, parseFromBSON readOnly nss cmdObj ev = .ok r → r.pipeline = ps)) := by
  refine ⟨?_, ?_, ?_, ?_⟩
  · intro h
    unfold parseFromBSON
    rw [extractPipeline_error_of_not_array h]
  · intro elems hget hall
    have hext : extractPipeline cmdObj =
        .error ⟨.TypeMismatch, "Each element of the \x27pipeline\x27 array must be an object"⟩ := by
      unfold extractPipeline
      rw [hget]
      exact checkPipelineElems_error_of_not_all_doc hall
    unfold parseFromBSON
    rw [hext]
  · intro elems _ hall
    exact checkPipelineElems_isOk_of_all_doc hall
  · intro elems ps hget hck
    have hext : extractPipeline cmdObj = .ok ps := by
      unfold extractPipeline
      rw [hget]
      exact hck
    exact ⟨checkPipelineElems_ok_map hck, rfl, rfl,
      fun r hr => parseFromBSON_ok_pipeline hext hr⟩

theorem parseFromBSON_pipeline_spec_witness :
    parseFromBSON false ⟨"db", "coll"⟩ [] none =
      .error ⟨.TypeMismatch, "\x27pipeline\x27 option must be specified as an array"⟩
    ∧ parseFromBSON false ⟨"db", "coll"⟩
        [(kPipelineName, BSONValue.array [BSONValue.int 1])] none =
      .error ⟨.TypeMismatch, "Each element of the \x27pipeline\x27 array must be an object"⟩
    ∧ (checkPipelineElems [BSONValue.doc [("$match", BSONValue.doc [])]]).isOk = true
    ∧ [BSONValue.doc [("$match", BSONValue.doc [])]] =
        [[("$match", BSONValue.doc [])]].map BSONValue.doc :=
  ⟨(parseFromBSON_pipeline_spec false ⟨"db", "coll"⟩ [] none).1 rfl,
   (parseFromBSON_pipeline_spec false ⟨"db", "coll"⟩
      [(kPipelineName, BSONValue.array [BSONValue.int 1])] none).2.1
      [BSONValue.int 1] rfl rfl,
   (parseFromBSON_pipeline_spec false ⟨"db", "coll"⟩
      [(kPipelineName, BSONValue.array [BSONValue.doc [("$match", BSONValue.doc [])]])] none).2.2.1
      [BSONValue.doc [("$match", BSONValue.doc [])]] rfl rfl,
   ((parseFromBSON_pipeline_spec false ⟨"db", "coll"⟩
      [(kPipelineName, BSONValue.array [BSONValue.doc [("$match", BSONValue.doc [])]]),
       (kCursorName, BSONValue.doc [])] none).2.2.2
      [BSONValue.doc [("$match", BSONValue.doc [])]] [[("$match", BSONValue.doc [])]]
      rfl rfl).1⟩

/-- Claim C2: for every raw document that passes pipeline extraction and
the field-by-field scan, if no "cursor" field is present in the document
and the resulting request has no explain verbosity (no `explainVerbosity`
parameter was supplied and the scan set none), decode fails with
`FailedToParse` stating that the cursor option is required, except for
aggregation explain. -/
theorem parseFromBSON_cursor_required (readOnly : Bool) (nss : NamespaceString)
    (cmdObj : BSONObj) (ps : List BSONObj) (st : ScanState)
    (hex : extractPipeline cmdObj = .ok ps)
    (hscan : scanFields readOnly cmdObj cmdObj
      ⟨AggregationRequest.make nss ps, false, false⟩ = .ok st)
    (hnc : getField cmdObj kCursorName = none)
    (hne : st.req.explainMode = none) :
    parseFromBSON readOnly nss cmdObj none =
      .error ⟨.FailedToParse,
        "The \x27cursor\x27 option is required, except for aggregation explain"⟩ := by
  have hcf : st.hasCursorElem = false :=
    scanFields_ok_hasCursorElem cmdObj hscan (getField_eq_none_forall hnc)
  unfold parseFromBSON
  split
  · next e heq =>
    rw [hex] at heq
    exact Except.noConfusion heq
  · next ps2 heq =>
    have hps : ps = ps2 := by
      rw [hex] at heq
      injection heq
    subst hps
    split
    · next e heq2 =>
      rw [hscan] at heq2
      exact Except.noConfusion heq2
    · next st2 heq2 =>
      have hst : st = st2 := by
        rw [hscan] at heq2
        injection heq2
      subst hst
      show finalChecks cmdObj st = _
      unfold finalChecks
      rw [hcf, hne]
      rfl

theorem parseFromBSON_cursor_required_witness :
    parseFromBSON false ⟨"db", "coll"⟩ [(kPipelineName, BSONValue.array [])] none =
      .error ⟨.FailedToParse,
        "The \x27cursor\x27 option is required, except for aggregation explain"⟩ :=
  parseFromBSON_cursor_required false ⟨"db", "coll"⟩
    [(kPipelineName, BSONValue.array [])] []
    ⟨AggregationRequest.make ⟨"db", "coll"⟩ [], false, false⟩ rfl rfl rfl rfl

/-- Claim C3 counterexample: decode accepts a raw document carrying both a
cursor option and explain:true, returning a request for which an explain
verbosity is present and a cursor option was present in the raw document,
so "exactly one of the two holds" is false as stated. -/
theorem parseFromBSON_exactly_one_counterexample :
    (parseFromBSON false ⟨"db", "coll"⟩
      [(kPipelineName, BSONValue.array []), (kCursorName, BSONValue.doc []),
       (kExplainName, BSONValue.bool true)] none).isOk = true
    ∧ decodedExplainIsSome (parseFromBSON false ⟨"db", "coll"⟩
        [(kPipelineName, BSONValue.array []), (kCursorName, BSONValue.doc []),
         (kExplainName, BSONValue.bool true)] none) = true
    ∧ (getField
        [(kPipelineName, BSONValue.array []), (kCursorName, BSONValue.doc []),
         (kExplainName, BSONValue.bool true)] kCursorName).isSome = true :=
  ⟨rfl, rfl, rfl⟩

/-- Claim C3 (amended): for every raw document accepted by decode, at least
one of {an explain verbosity is present in the result} or {a cursor field
is present in the raw document} holds: decode never returns successfully a
request for which neither holds (explain is the only path allowed to omit
cursor options); both may hold at once. -/
theorem parseFromBSON_cursor_or_explain (readOnly : Bool) (nss : NamespaceString)
    (cmdObj : BSONObj) (ev : Option ExplainOptions.Verbosity) (r : AggregationRequest)
    (h : parseFromBSON readOnly nss cmdObj ev = .ok r) :
    (getField cmdObj kCursorName).isSome = true ∨ r.explainMode.isSome = true := by
  unfold parseFromBSON at h
  split at h
  · exact Except.noConfusion h
  · next ps hex =>
    split at h
    · exact Except.noConfusion h
    · next st hscan =>
      rcases crossFieldChecks_ok_cursor_or_explain h with hc | he
      · by_cases hg : (getField cmdObj kCursorName).isSome = true
        · exact Or.inl hg
        · have hnone : getField cmdObj kCursorName = none := by
            cases hgf : getField cmdObj kCursorName
            · rfl
            · rw [hgf] at hg
              exact absurd rfl hg
          have hpres := scanFields_ok_hasCursorElem cmdObj hscan (getField_eq_none_forall hnone)
          rw [hc] at hpres
          exact Bool.noConfusion hpres
      · exact Or.inr he

theorem parseFromBSON_cursor_or_explain_witness :
    (getField [(kPipelineName, BSONValue.array []), (kCursorName, BSONValue.doc [])]
        kCursorName).isSome = true
    ∨ (AggregationRequest.make ⟨"db", "coll"⟩ []).explainMode.isSome = true :=
  parseFromBSON_cursor_or_explain false ⟨"db", "coll"⟩
    [(kPipelineName, BSONValue.array []), (kCursorName, BSONValue.doc [])] none
    (AggregationRequest.make ⟨"db", "coll"⟩ []) rfl

theorem getField_append {a b : BSONObj} {k : String} :
    getField (a ++ b) k = match getField a k with
      | some v => some v
      | none => getField b k := by
  induction a with
  | nil => simp [getField]
  | cons f rest ih =>
    obtain ⟨n, v⟩ := f
    by_cases hk : n = k
    · simp [getField, hk]
    · simp [getField, hk, ih]

/-- Claim C4: encode is total and emits fields only when they carry
non-default information: the command-name field holds the collection-name
portion of the namespace; the pipeline is emitted verbatim in original
order; allowDiskUse, fromRouter and the bypass-document-validation field
appear only when true; collation and hint appear only when non-empty; the
cursor field is emitted as a batchSize sub-document exactly when the
request has no explain verbosity; and the explain verbosity is never
emitted. -/
theorem serializeToCommandObj_spec (r : AggregationRequest) :
    getField (serializeToCommandObj r) kCommandName = some (BSONValue.str r.nss.coll)
    ∧ getField (serializeToCommandObj r) kPipelineName =
        some (BSONValue.array (r.pipeline.map BSONValue.doc))
    ∧ getField (serializeToCommandObj r) kAllowDiskUseName =
        (if r.allowDiskUse then some (BSONValue.bool true) else none)
    ∧ getField (serializeToCommandObj r) kFromRouterName =
        (if r.fromRouter then some (BSONValue.bool true) else none)
    ∧ getField (serializeToCommandObj r) bypassDocumentValidationCommandOption =
        (if r.bypassDocumentValidation then some (BSONValue.bool true) else none)
    ∧ getField (serializeToCommandObj r) kCollationName =
        (if r.collation.isEmpty then none else some (BSONValue.doc r.collation))
    ∧ getField (serializeToCommandObj r) kCursorName =
        (if r.explainMode.isSome then none
         else some (BSONValue.doc [(kBatchSizeName, BSONValue.int r.batchSize)]))
    ∧ getField (serializeToCommandObj r) kHintName =
        (if r.hint.isEmpty then none else some (BSONValue.doc r.hint))
    ∧ getField (serializeToCommandObj r) kExplainName = none := by
  refine ⟨?_, ?_, ?_, ?_, ?_, ?_, ?_, ?_, ?_⟩
  all_goals
    simp only [serializeToCommandObj, List.cons_append, List.nil_append, getField_append]
  all_goals repeat' split
  all_goals simp_all [getField, kCommandName, kCursorName, kBatchSizeName, kFromRouterName,
    kPipelineName, kCollationName, kExplainName, kAllowDiskUseName, kHintName,
    bypassDocumentValidationCommandOption]

theorem checkPipelineElems_map_doc :
    ∀ (ps : List BSONObj), checkPipelineElems (ps.map BSONValue.doc) = .ok ps
  | [] => rfl
  | p :: rest => by
    unfold checkPipelineElems
    simp [checkPipelineElems_map_doc rest]

/- Closed evaluation facts about the scan classification of the
field names of the serializer, used to drive simp in the round-trip proof. -/

theorem swd_aggregate : startsWithDollarSign "aggregate" = false := rfl
theorem swd_pipeline : startsWithDollarSign "pipeline" = false := rfl
theorem swd_allowDiskUse : startsWithDollarSign "allowDiskUse" = false := rfl
theorem swd_fromRouter : startsWithDollarSign "fromRouter" = false := rfl
theorem swd_bypassDV : startsWithDollarSign "bypassDocumentValidation" = false := rfl
theorem swd_collation : startsWithDollarSign "collation" = false := rfl
theorem swd_cursor : startsWithDollarSign "cursor" = false := rfl
theorem swd_hint : startsWithDollarSign "hint" = false := rfl

theorem opew_aggregate : "aggregate" ∈ optionsParsedElseWhere := by decide
theorem opew_pipeline : "pipeline" ∈ optionsParsedElseWhere := by decide
theorem opew_allowDiskUse : "allowDiskUse" ∉ optionsParsedElseWhere := by decide
theorem opew_fromRouter : "fromRouter" ∉ optionsParsedElseWhere := by decide
theorem opew_bypassDV : "bypassDocumentValidation" ∉ optionsParsedElseWhere := by decide
theorem opew_collation : "collation" ∉ optionsParsedElseWhere := by decide
theorem opew_cursor : "cursor" ∉ optionsParsedElseWhere := by decide
theorem opew_hint : "hint" ∉ optionsParsedElseWhere := by decide

/-- Core round-trip fact: decoding the encoding of any request without an
explain verbosity and with a non-negative batch size gives back the very
same request. -/
theorem decode_serialize_of_explain_none :
    ∀ (r : AggregationRequest), r.explainMode = none → 0 ≤ r.batchSize →
      parseFromBSON false r.nss (serializeToCommandObj r) none = .ok r := by
  intro r hne hb
  obtain ⟨nss, ps, b, c, hnt, em, adu, fr, bdv⟩ := r
  simp only at hne hb
  subst hne
  cases adu <;> cases fr <;> cases bdv <;> cases c <;> cases hnt
  all_goals
    simp [parseFromBSON, extractPipeline, getField, checkPipelineElems_map_doc,
      scanFields, stepField, crossFieldChecks, applyVerbosityParam, finalChecks,
      parseCommandCursorOptions, setBatchSize, setCollation, setHint, setExplain,
      setAllowDiskUse, setFromRouter, setBypassDocumentValidation, AggregationRequest.make,
      serializeToCommandObj, kCommandName, kCursorName, kBatchSizeName, kFromRouterName,
      kPipelineName, kCollationName, kExplainName, kAllowDiskUseName, kHintName,
      kDefaultBatchSize, trueValue, bypassDocumentValidationCommandOption,
      kReadConcernFieldName, kWriteConcernField, cmdOptionMaxTimeMS,
      swd_aggregate, swd_pipeline, swd_allowDiskUse, swd_fromRouter, swd_bypassDV,
      swd_collation, swd_cursor, swd_hint,
      opew_aggregate, opew_pipeline, opew_allowDiskUse, opew_fromRouter, opew_bypassDV,
      opew_collation, opew_cursor, opew_hint, hb]

/-- Claim C5 counterexample: the document
{pipeline: [], cursor: {batchSize: 5}, explain: true} is accepted by decode
with batch size 5 and an explain verbosity, but its encoding drops the
cursor sub-document: re-decoding without a verbosity parameter fails
outright, and re-decoding with the original verbosity resets the batch
size to the default 101 ≠ 5, so encode(decode(X)) does not reproduce the
same semantic request for every accepted X. -/
theorem parseFromBSON_roundtrip_counterexample :
    decodedBatchSize (parseFromBSON false ⟨"db", "coll"⟩
      [(kPipelineName, BSONValue.array []),
       (kCursorName, BSONValue.doc [(kBatchSizeName, BSONValue.int 5)]),
       (kExplainName, BSONValue.bool true)] none) = some 5
    ∧ decodedExplainIsSome (parseFromBSON false ⟨"db", "coll"⟩
        [(kPipelineName, BSONValue.array []),
         (kCursorName, BSONValue.doc [(kBatchSizeName, BSONValue.int 5)]),
         (kExplainName, BSONValue.bool true)] none) = true
    ∧ parseFromBSON false ⟨"db", "coll"⟩
        (reserializeOk (parseFromBSON false ⟨"db", "coll"⟩
          [(kPipelineName, BSONValue.array []),
           (kCursorName, BSONValue.doc [(kBatchSizeName, BSONValue.int 5)]),
           (kExplainName, BSONValue.bool true)] none)) none =
        .error ⟨.FailedToParse,
          "The \x27cursor\x27 option is required, except for aggregation explain"⟩
    ∧ decodedBatchSize (parseFromBSON false ⟨"db", "coll"⟩
        (reserializeOk (parseFromBSON false ⟨"db", "coll"⟩
          [(kPipelineName, BSONValue.array []),
           (kCursorName, BSONValue.doc [(kBatchSizeName, BSONValue.int 5)]),
           (kExplainName, BSONValue.bool true)] none))
        (some ExplainOptions.Verbosity.kQueryPlanner)) = some 101 :=
  ⟨rfl, rfl, rfl, rfl⟩

/-- Claim C5 (amended): for every raw document accepted by decode whose
resulting request carries no explain verbosity, re-decoding the encoded
document (with no verbosity parameter, read-only mode inactive, over the
namespace of the result) reproduces exactly the same request: pipeline,
batch size, collation, hint, boolean flags and (absent) explain state. -/
theorem parseFromBSON_roundtrip (readOnly : Bool) (nss : NamespaceString)
    (cmdObj : BSONObj) (ev : Option ExplainOptions.Verbosity) (r : AggregationRequest)
    (h : parseFromBSON readOnly nss cmdObj ev = .ok r) (hne : r.explainMode = none) :
    parseFromBSON false r.nss (serializeToCommandObj r) none = .ok r :=
  decode_serialize_of_explain_none r hne (parseFromBSON_ok_batchSize_nonneg h)

theorem parseFromBSON_roundtrip_witness :
    parseFromBSON false (AggregationRequest.make ⟨"db", "coll"⟩ []).nss
      (serializeToCommandObj (AggregationRequest.make ⟨"db", "coll"⟩ [])) none =
      .ok (AggregationRequest.make ⟨"db", "coll"⟩ []) :=
  parseFromBSON_roundtrip false ⟨"db", "coll"⟩
    [(kPipelineName, BSONValue.array []), (kCursorName, BSONValue.doc [])] none
    (AggregationRequest.make ⟨"db", "coll"⟩ []) rfl rfl

/-- Claim C6: during the field scan of decode, a "hint" field is stored as-is
when its value is an object, normalized to a synthetic document
{"$hint": <string>} when its value is a string, and any other value fails
with `FailedToParse` stating that hint must be a string naming an index or
an object with a key pattern; in particular decoding
{pipeline: [{$match: {}}], cursor: {}, hint: "idx_1"} succeeds with
getHint() equal to {"$hint": "idx_1"}. -/
theorem stepField_hint_spec (ro : Bool) (cmdObj : BSONObj) (st : ScanState)
    (v : BSONValue) :
    (∀ d, v = BSONValue.doc d →
      stepField ro cmdObj st (kHintName, v) = .ok { st with req := setHint st.req d })
    ∧ (∀ s, v = BSONValue.str s →
      stepField ro cmdObj st (kHintName, v) =
        .ok { st with req := setHint st.req [("$hint", BSONValue.str s)] })
    ∧ (v.isDoc = false → (∀ s, v ≠ BSONValue.str s) →
      stepField ro cmdObj st (kHintName, v) =
        .error ⟨.FailedToParse,
          "hint must be specified as a string representing an index name, or an object representing an index\x27s key pattern"⟩)
    ∧ decodedHint (parseFromBSON false ⟨"db", "coll"⟩
        [(kPipelineName, BSONValue.array [BSONValue.doc [("$match", BSONValue.doc [])]]),
         (kCursorName, BSONValue.doc []), (kHintName, BSONValue.str "idx_1")] none) =
        some [("$hint", BSONValue.str "idx_1")] := by
  refine ⟨?_, ?_, ?_, rfl⟩
  · intro d hd
    subst hd
    rfl
  · intro s hs
    subst hs
    rfl
  · intro hdoc hstr
    cases v
    · rfl
    · rfl
    · rfl
    · exact absurd rfl (hstr _)
    · exact absurd hdoc (by simp [BSONValue.isDoc])
    · rfl

theorem stepField_hint_spec_witness :
    stepField false [] ⟨AggregationRequest.make ⟨"db", "coll"⟩ [], false, false⟩
      (kHintName, BSONValue.doc [("a", BSONValue.int 1)]) =
      .ok ⟨setHint (AggregationRequest.make ⟨"db", "coll"⟩ []) [("a", BSONValue.int 1)],
        false, false⟩
    ∧ stepField false [] ⟨AggregationRequest.make ⟨"db", "coll"⟩ [], false, false⟩
        (kHintName, BSONValue.str "idx_1") =
      .ok ⟨setHint (AggregationRequest.make ⟨"db", "coll"⟩ [])
        [("$hint", BSONValue.str "idx_1")], false, false⟩
    ∧ stepField false [] ⟨AggregationRequest.make ⟨"db", "coll"⟩ [], false, false⟩
        (kHintName, BSONValue.int 7) =
      .error ⟨.FailedToParse,
        "hint must be specified as a string representing an index name, or an object representing an index\x27s key pattern"⟩ :=
  ⟨(stepField_hint_spec false [] ⟨AggregationRequest.make ⟨"db", "coll"⟩ [], false, false⟩
      (BSONValue.doc [("a", BSONValue.int 1)])).1 [("a", BSONValue.int 1)] rfl,
   (stepField_hint_spec false [] ⟨AggregationRequest.make ⟨"db", "coll"⟩ [], false, false⟩
      (BSONValue.str "idx_1")).2.1 "idx_1" rfl,
   (stepField_hint_spec false [] ⟨AggregationRequest.make ⟨"db", "coll"⟩ [], false, false⟩
      (BSONValue.int 7)).2.2.1 rfl (fun _ h => BSONValue.noConfusion h)⟩

/-- Claim C8: during the field scan of decode, an "allowDiskUse" field fails
with `IllegalOperation` when the storage layer is in read-only mode,
regardless of the type of the value; when not read-only the value must be a
boolean (else `TypeMismatch`) and is stored; the example document
{pipeline: [{$match: {}}], cursor: {}, allowDiskUse: true} fails with
`IllegalOperation` under read-only mode and succeeds with
shouldAllowDiskUse() = true otherwise. -/
theorem stepField_allowDiskUse_spec (cmdObj : BSONObj) (st : ScanState) (v : BSONValue) :
    (stepField true cmdObj st (kAllowDiskUseName, v) =
      .error ⟨.IllegalOperation,
        "The \x27allowDiskUse\x27 option is not permitted in read-only mode."⟩)
    ∧ (∀ b, v = BSONValue.bool b →
        stepField false cmdObj st (kAllowDiskUseName, v) =
          .ok { st with req := setAllowDiskUse st.req b })
    ∧ ((∀ b, v ≠ BSONValue.bool b) →
        stepField false cmdObj st (kAllowDiskUseName, v) =
          .error ⟨.TypeMismatch, "allowDiskUse must be a boolean, not a " ++ typeName v⟩)
    ∧ parseFromBSON true ⟨"db", "coll"⟩
        [(kPipelineName, BSONValue.array [BSONValue.doc [("$match", BSONValue.doc [])]]),
         (kCursorName, BSONValue.doc []), (kAllowDiskUseName, BSONValue.bool true)] none =
        .error ⟨.IllegalOperation,
          "The \x27allowDiskUse\x27 option is not permitted in read-only mode."⟩
    ∧ decodedAllowDiskUse (parseFromBSON false ⟨"db", "coll"⟩
        [(kPipelineName, BSONValue.array [BSONValue.doc [("$match", BSONValue.doc [])]]),
         (kCursorName, BSONValue.doc []), (kAllowDiskUseName, BSONValue.bool true)] none) =
        some true := by
  refine ⟨rfl, ?_, ?_, rfl, rfl⟩
  · intro b hb
    subst hb
    rfl
  · intro hnb
    cases v
    · rfl
    · exact absurd rfl (hnb _)
    · rfl
    · rfl
    · rfl
    · rfl

theorem stepField_allowDiskUse_spec_witness :
    stepField false [] ⟨AggregationRequest.make ⟨"db", "coll"⟩ [], false, false⟩
      (kAllowDiskUseName, BSONValue.bool true) =
      .ok ⟨setAllowDiskUse (AggregationRequest.make ⟨"db", "coll"⟩ []) true, false, false⟩
    ∧ stepField false [] ⟨AggregationRequest.make ⟨"db", "coll"⟩ [], false, false⟩
        (kAllowDiskUseName, BSONValue.str "x") =
      .error ⟨.TypeMismatch, "allowDiskUse must be a boolean, not a string"⟩ :=
  ⟨(stepField_allowDiskUse_spec [] ⟨AggregationRequest.make ⟨"db", "coll"⟩ [], false, false⟩
      (BSONValue.bool true)).2.1 true rfl,
   (stepField_allowDiskUse_spec [] ⟨AggregationRequest.make ⟨"db", "coll"⟩ [], false, false⟩
      (BSONValue.str "x")).2.2.1 (fun _ h => BSONValue.noConfusion h)⟩

/-- Claim C9: during the field scan every field whose name starts with '$'
is silently ignored, every name in the externally-parsed set (maxTimeMS,
writeConcern, pipeline, aggregate, readConcern) is silently ignored, and
any other name outside the handled option set fails with `FailedToParse`
naming that field as unrecognized; end to end, an unrecognized top-level
field makes decode fail with that error. -/
theorem stepField_unrecognized_spec (ro : Bool) (cmdObj : BSONObj) (st : ScanState)
    (name : String) (v : BSONValue) :
    (startsWithDollarSign name = true → stepField ro cmdObj st (name, v) = .ok st)
    ∧ (name ∈ optionsParsedElseWhere → stepField ro cmdObj st (name, v) = .ok st)
    ∧ (startsWithDollarSign name = false → name ∉ optionsParsedElseWhere →
        name ∉ [kCursorName, kCollationName, kHintName, kExplainName, kFromRouterName,
          kAllowDiskUseName, bypassDocumentValidationCommandOption] →
        stepField ro cmdObj st (name, v) =
          .error ⟨.FailedToParse, "unrecognized field \x27" ++ name ++ "\x27"⟩)
    ∧ parseFromBSON false ⟨"db", "coll"⟩
        [(kPipelineName, BSONValue.array []), (kCursorName, BSONValue.doc []),
         ("zzz", BSONValue.int 1)] none =
        .error ⟨.FailedToParse, "unrecognized field \x27zzz\x27"⟩ := by
  refine ⟨?_, ?_, ?_, rfl⟩
  · intro h
    simp [stepField, h]
  · intro h
    simp [stepField, h]
  · intro hd hmem hhandled
    simp only [List.mem_cons, List.not_mem_nil, or_false, not_or] at hhandled
    obtain ⟨h1, h2, h3, h4, h5, h6, h7⟩ := hhandled
    simp [stepField, hd, hmem, h1, h2, h3, h4, h5, h6, h7]

theorem stepField_unrecognized_spec_witness :
    stepField false [] ⟨AggregationRequest.make ⟨"db", "coll"⟩ [], false, false⟩
      ("$db", BSONValue.str "db") =
      .ok ⟨AggregationRequest.make ⟨"db", "coll"⟩ [], false, false⟩
    ∧ stepField false [] ⟨AggregationRequest.make ⟨"db", "coll"⟩ [], false, false⟩
        ("maxTimeMS", BSONValue.int 100) =
      .ok ⟨AggregationRequest.make ⟨"db", "coll"⟩ [], false, false⟩
    ∧ stepField false [] ⟨AggregationRequest.make ⟨"db", "coll"⟩ [], false, false⟩
        ("zzz", BSONValue.int 1) =
      .error ⟨.FailedToParse, "unrecognized field \x27zzz\x27"⟩ :=
  ⟨(stepField_unrecognized_spec false [] ⟨AggregationRequest.make ⟨"db", "coll"⟩ [],
      false, false⟩ "$db" (BSONValue.str "db")).1 rfl,
   (stepField_unrecognized_spec false [] ⟨AggregationRequest.make ⟨"db", "coll"⟩ [],
      false, false⟩ "maxTimeMS" (BSONValue.int 100)).2.1 (by decide),
   (stepField_unrecognized_spec false [] ⟨AggregationRequest.make ⟨"db", "coll"⟩ [],
      false, false⟩ "zzz" (BSONValue.int 1)).2.2.1 rfl (by decide) (by decide)⟩

/-- Claim C7 counterexample: with an explainVerbosity parameter supplied
and an explain field also present, decode does fail with `FailedToParse`,
but the source message reads "illegal when a explain verbosity is also
provided", which does not contain the claimed text "illegal when an
explain verbosity is also provided". -/
theorem parseFromBSON_explain_collision_counterexample :
    parseFromBSON false ⟨"db", "coll"⟩
      [(kPipelineName, BSONValue.array []), (kCursorName, BSONValue.doc []),
       (kExplainName, BSONValue.bool true)] (some ExplainOptions.Verbosity.kQueryPlanner) =
      .error ⟨.FailedToParse,
        "The \x27explain\x27 option is illegal when a explain verbosity is also provided"⟩
    ∧ strHasSub "illegal when an explain verbosity is also provided"
        "The \x27explain\x27 option is illegal when a explain verbosity is also provided" =
        false :=
  ⟨rfl, rfl⟩

/-- Claim C7 (amended): for every raw document that passes pipeline
extraction and the field scan, and every supplied explainVerbosity
parameter: if the document contains an "explain" field, decode fails with
`FailedToParse` whose message contains "illegal when a explain verbosity is
also provided" (the source writes "a explain", not "an explain"); if the
document contains no "explain" field, any successful decode carries the
supplied parameter as the explain verbosity of the request. -/
theorem parseFromBSON_explain_collision (readOnly : Bool) (nss : NamespaceString)
    (cmdObj : BSONObj) (v : ExplainOptions.Verbosity) (ps : List BSONObj) (st : ScanState)
    (hex : extractPipeline cmdObj = .ok ps)
    (hscan : scanFields readOnly cmdObj cmdObj
      ⟨AggregationRequest.make nss ps, false, false⟩ = .ok st) :
    ((getField cmdObj kExplainName).isSome = true →
      parseFromBSON readOnly nss cmdObj (some v) =
        .error ⟨.FailedToParse,
          "The \x27explain\x27 option is illegal when a explain verbosity is also provided"⟩
      ∧ strHasSub "illegal when a explain verbosity is also provided"
          "The \x27explain\x27 option is illegal when a explain verbosity is also provided" =
          true)
    ∧ (getField cmdObj kExplainName = none →
        ∀ r, parseFromBSON readOnly nss cmdObj (some v) = .ok r →
          r.explainMode = some v) := by
  constructor
  · intro hsome
    have hw : ∃ w, getField cmdObj kExplainName = some w := by
      cases hg : getField cmdObj kExplainName
      · rw [hg] at hsome
        exact absurd hsome (by simp)
      · exact ⟨_, rfl⟩
    obtain ⟨w, hw⟩ := hw
    have hmem := getField_eq_some_mem hw
    have hhe : st.hasExplainElem = true :=
      scanFields_ok_hasExplainElem_of_mem cmdObj hscan ⟨(kExplainName, w), hmem, rfl⟩
    refine ⟨?_, rfl⟩
    unfold parseFromBSON
    split
    · next e heq =>
      rw [hex] at heq
      exact Except.noConfusion heq
    · next ps2 heq =>
      have hps : ps = ps2 := by
        rw [hex] at heq
        injection heq
      subst hps
      split
      · next e heq2 =>
        rw [hscan] at heq2
        exact Except.noConfusion heq2
      · next st2 heq2 =>
        have hst : st = st2 := by
          rw [hscan] at heq2
          injection heq2
        subst hst
        simp [crossFieldChecks, applyVerbosityParam, hhe]
        rfl
  · intro hnone r hr
    unfold parseFromBSON at hr
    split at hr
    · exact Except.noConfusion hr
    · next ps2 heq =>
      split at hr
      · exact Except.noConfusion hr
      · next st2 heq2 =>
        rcases crossFieldChecks_ok_shape hr with ⟨hev, _⟩ | ⟨v2, hev, _, hrr⟩
        · exact Option.noConfusion hev
        · have hv : v2 = v := by
            injection hev with hev
            exact hev.symm
          subst hv
          rw [hrr]
          rfl

theorem parseFromBSON_explain_collision_witness :
    (parseFromBSON false ⟨"db", "coll"⟩
      [(kPipelineName, BSONValue.array []), (kCursorName, BSONValue.doc []),
       (kExplainName, BSONValue.bool true)] (some ExplainOptions.Verbosity.kQueryPlanner) =
      .error ⟨.FailedToParse,
        "The \x27explain\x27 option is illegal when a explain verbosity is also provided"⟩
      ∧ strHasSub "illegal when a explain verbosity is also provided"
          "The \x27explain\x27 option is illegal when a explain verbosity is also provided" =
          true)
    ∧ ({ AggregationRequest.make ⟨"db", "coll"⟩ [] with
          explainMode := some ExplainOptions.Verbosity.kQueryPlanner }).explainMode =
        some ExplainOptions.Verbosity.kQueryPlanner :=
  ⟨(parseFromBSON_explain_collision false ⟨"db", "coll"⟩
      [(kPipelineName, BSONValue.array []), (kCursorName, BSONValue.doc []),
       (kExplainName, BSONValue.bool true)] ExplainOptions.Verbosity.kQueryPlanner []
      ⟨{ AggregationRequest.make ⟨"db", "coll"⟩ [] with
          explainMode := some ExplainOptions.Verbosity.kQueryPlanner }, true, true⟩
      rfl rfl).1 rfl,
   (parseFromBSON_explain_collision false ⟨"db", "coll"⟩
      [(kPipelineName, BSONValue.array []), (kCursorName, BSONValue.doc [])]
      ExplainOptions.Verbosity.kQueryPlanner []
      ⟨AggregationRequest.make ⟨"db", "coll"⟩ [], true, false⟩ rfl rfl).2 rfl
      { AggregationRequest.make ⟨"db", "coll"⟩ [] with
          explainMode := some ExplainOptions.Verbosity.kQueryPlanner } rfl⟩

/-- Claim C10: an "explain" field of boolean false marks the explain
element as present but sets no verbosity; hence explain:false with no
cursor field fails with `FailedToParse` (cursor required), explain:false
with a cursor field succeeds with no explain verbosity set, and
explain:false still collides with an explicit explainVerbosity
parameter. -/
theorem parseFromBSON_explain_false_spec (ro : Bool) (cmdObj : BSONObj) (st : ScanState) :
    stepField ro cmdObj st (kExplainName, BSONValue.bool false) =
      .ok { st with hasExplainElem := true }
    ∧ parseFromBSON false ⟨"db", "coll"⟩
        [(kPipelineName, BSONValue.array []), (kExplainName, BSONValue.bool false)] none =
      .error ⟨.FailedToParse,
        "The \x27cursor\x27 option is required, except for aggregation explain"⟩
    ∧ parseFromBSON false ⟨"db", "coll"⟩
        [(kPipelineName, BSONValue.array []), (kCursorName, BSONValue.doc []),
         (kExplainName, BSONValue.bool false)] none =
      .ok (AggregationRequest.make ⟨"db", "coll"⟩ [])
    ∧ decodedExplainIsSome (parseFromBSON false ⟨"db", "coll"⟩
        [(kPipelineName, BSONValue.array []), (kCursorName, BSONValue.doc []),
         (kExplainName, BSONValue.bool false)] none) = false
    ∧ parseFromBSON false ⟨"db", "coll"⟩
        [(kPipelineName, BSONValue.array []), (kCursorName, BSONValue.doc []),
         (kExplainName, BSONValue.bool false)] (some ExplainOptions.Verbosity.kQueryPlanner) =
      .error ⟨.FailedToParse,
        "The \x27explain\x27 option is illegal when a explain verbosity is also provided"⟩ :=
  ⟨rfl, rfl, rfl, rfl, rfl⟩
